import Mathlib

/-!
Verification of the environment identity and lifecycle engine of vpyapp
(src/vpyapp.py), a standalone script that provisions per-package python
virtualenvs keyed by a content hash of the package specification.

The development shallowly embeds the relevant functions of vpyapp.py:

* the search-path list utilities (`searchpath_*`, vpyapp.py lines 54-117);
* virtualenv activation and deactivation over an explicit environment map
  (`deactivate_virtualenv` / `activate_virtualenv`, lines 119-138);
* package-spec normalization, the set-once spec binding, and the SHA-1
  identity hash (`normalize_package_spec`, the `package_spec` setter and
  `package_spec_hash`, lines 182-204);
* the lifecycle engine `do_install` / `remove_appdir` / `cmd_run`
  (lines 251-255, 341-427, 448-488), modelled as a state monad over an
  abstract world holding a flat set of filesystem paths plus an oracle
  that decides the outcome of each external-tool invocation.

Python's `os.path.abspath(os.path.normpath(os.path.expanduser(d)))`
normalization of a directory name is environment dependent (it consults
the working directory and the home directory), so it is carried as an
explicit function parameter `N : String → String` everywhere the source
calls it; theorems hold for every such function (the real one included).
Likewise `pathlib.Path(p).as_uri()` is `"file://" ++ q p` for the
percent-quoting function `q`, carried as a parameter.
-/

/-- Python exception kinds that the modelled code can raise. -/
inductive PyError where
  | keyError
  | assertionError
  | calledProcessError
  | runtimeError
deriving DecidableEq, Repr

/-- Membership of a single character in a python string, the embedding of
the python expression `c in s` for a one-character `c`. -/
def pyIn (c : Char) (s : String) : Bool :=
  s.data.contains c

/-- Embedding of `os.path.join(a, b)` for a POSIX path `a` that does not end
in a slash (every join in the modelled code has this form). -/
def pjoin (a b : String) : String :=
  a ++ "/" ++ b

/-- Embedding of python `s.endswith(suffix)`: suffix test on the character
lists. -/
def pyEndsWith (s suffix : String) : Bool :=
  suffix.data.isSuffixOf s.data

/-- Embedding of `searchpath_parts_contains_dir` (vpyapp.py lines 66-68):
normalize the directory with `N` and test list membership. -/
def searchpath_parts_contains_dir (N : String → String) (parts : List String)
    (dirname : String) : Bool :=
  (N dirname) ∈ parts

/-- Embedding of `searchpath_parts_remove_dir` (lines 73-76): normalize the
directory and drop every occurrence. -/
def searchpath_parts_remove_dir (N : String → String) (parts : List String)
    (dirname : String) : List String :=
  let d := N dirname
  parts.filter (fun x => x ≠ d)

/-- Embedding of `searchpath_parts_prepend` (lines 81-84): normalize, remove
existing occurrences (which normalizes once more, as the source does), then
insert at the front. -/
def searchpath_parts_prepend (N : String → String) (parts : List String)
    (dirname : String) : List String :=
  let d := N dirname
  d :: searchpath_parts_remove_dir N parts d

/-- Embedding of `searchpath_parts_prepend_if_missing` (lines 89-95):
normalize; if present return a copy of the list unchanged, else insert at
position 0. -/
def searchpath_parts_prepend_if_missing (N : String → String)
    (parts : List String) (dirname : String) : List String :=
  let d := N dirname
  if d ∈ parts then parts else d :: parts

/-- Embedding of `searchpath_parts_force_append` (lines 100-103): normalize,
remove existing occurrences (normalizing once more, as the source does),
then append at the end. -/
def searchpath_parts_force_append (N : String → String) (parts : List String)
    (dirname : String) : List String :=
  let d := N dirname
  searchpath_parts_remove_dir N parts d ++ [d]

/-- Embedding of `searchpath_parts_append` (lines 108-114): normalize; if
present return a copy unchanged, else append at the end. -/
def searchpath_parts_append (N : String → String) (parts : List String)
    (dirname : String) : List String :=
  let d := N dirname
  if d ∈ parts then parts else parts ++ [d]

/-- Splitting a character list at every occurrence of the separator, the
list-of-characters core of python `str.split(sep)` for a one-character
separator. Empty segments are kept, as python keeps them. -/
def splitChar (c : Char) : List Char → List (List Char)
  | [] => [[]]
  | x :: xs =>
    if x = c then [] :: splitChar c xs
    else
      match splitChar c xs with
      | [] => [[x]]
      | g :: gs => (x :: g) :: gs

/-- Interleaving a separator between segments, the core of
`sep.join(parts)`. -/
def joinChar (c : Char) : List (List Char) → List Char
  | [] => []
  | [x] => x
  | x :: y :: ys => x ++ c :: joinChar c (y :: ys)

/-- Embedding of `searchpath_split` (lines 54-58) at its explicit-argument
use sites: split on the POSIX path separator and drop empty segments. -/
def searchpath_split (s : String) : List String :=
  ((splitChar ':' s.data).map String.mk).filter (fun x => x ≠ "")

/-- Embedding of `searchpath_join` (lines 60-61): join with the POSIX path
separator. -/
def searchpath_join (parts : List String) : String :=
  String.mk (joinChar ':' (parts.map String.data))

/-- Embedding of `searchpath_remove_dir` (lines 78-79). -/
def searchpath_remove_dir (N : String → String) (s d : String) : String :=
  searchpath_join (searchpath_parts_remove_dir N (searchpath_split s) d)

/-- Embedding of `searchpath_prepend_if_missing` (lines 97-98). -/
def searchpath_prepend_if_missing (N : String → String) (s d : String) : String :=
  searchpath_join (searchpath_parts_prepend_if_missing N (searchpath_split s) d)

/-- Embedding of `searchpath_contains_dir` (lines 70-71). -/
def searchpath_contains_dir (N : String → String) (s d : String) : Bool :=
  searchpath_parts_contains_dir N (searchpath_split s) d

/-- Embedding of `Cli.normalize_package_spec` (vpyapp.py lines 182-189).
A raw spec with no scheme separator that looks like a filesystem path
(contains a slash or a fragment marker, or ends with a recognized archive
suffix) is rewritten to the file URI of its normalized absolute path,
which is `"file://" ++ q (N spec)` for the quoting function `q` of
`pathlib.Path.as_uri`; any other spec passes through unchanged. -/
def normalize_package_spec (N q : String → String) (package_spec : String) : String :=
  if ¬ pyIn ':' package_spec ∧
      (pyIn '/' package_spec ∨ pyIn '#' package_spec ∨ pyEndsWith package_spec ".gz") then
    "file://" ++ q (N package_spec)
  else package_spec

/-- Left-rotation of a 32-bit word represented as a natural number below
2 to the 32nd power. -/
def rotl32 (x n : Nat) : Nat :=
  ((x <<< n) % 4294967296) ||| (x >>> (32 - n))

/-- Big-endian 32-bit words from a byte list (groups of four). -/
def bytesToWordsBE : List Nat → List Nat
  | b0 :: b1 :: b2 :: b3 :: rest =>
    (b0 * 16777216 + b1 * 65536 + b2 * 256 + b3) :: bytesToWordsBE rest
  | _ => []

/-- Big-endian 8-byte rendering of a natural number (the length field of
SHA-1 padding). -/
def beBytes8 (n : Nat) : List Nat :=
  [(n >>> 56) % 256, (n >>> 48) % 256, (n >>> 40) % 256, (n >>> 32) % 256,
   (n >>> 24) % 256, (n >>> 16) % 256, (n >>> 8) % 256, n % 256]

/-- SHA-1 message padding: append the 0x80 byte, zeros up to 56 modulo 64,
then the bit length as eight big-endian bytes. -/
def sha1Pad (msg : List Nat) : List Nat :=
  let len := msg.length
  let zeros := (120 - ((len + 1) % 64)) % 64
  msg ++ [128] ++ List.replicate zeros 0 ++ beBytes8 (8 * len)

/-- Cuts a byte list into chunks of 64, with a structural fuel argument
bounding the number of steps (each step consumes at least one element, so
the list's length is enough fuel). -/
def chunks64Fuel : Nat → List Nat → List (List Nat)
  | 0, _ => []
  | _, [] => []
  | fuel + 1, x :: xs => ((x :: xs).take 64) :: chunks64Fuel fuel ((x :: xs).drop 64)

/-- Cuts a byte list into chunks of 64. -/
def chunks64 (l : List Nat) : List (List Nat) :=
  chunks64Fuel l.length l

/-- SHA-1 message-schedule extension: runs the given number of steps, with
the words produced so far held most-recent-first in the accumulator. -/
def sha1ExtendLoop : Nat → List Nat → List Nat
  | 0, acc => acc
  | n + 1, acc =>
    let g := fun i => (acc.get? i).getD 0
    let w := rotl32 ((((g 2).xor (g 7)).xor (g 13)).xor (g 15)) 1
    sha1ExtendLoop n (w :: acc)

/-- One SHA-1 round: the round function and constant are selected by the
round index. -/
def sha1Round (i : Nat) (st : Nat × Nat × Nat × Nat × Nat) (w : Nat) :
    Nat × Nat × Nat × Nat × Nat :=
  let a := st.1
  let b := st.2.1
  let c := st.2.2.1
  let d := st.2.2.2.1
  let e := st.2.2.2.2
  let f :=
    if i < 20 then (b &&& c) ||| ((4294967295 ^^^ b) &&& d)
    else if i < 40 then (b ^^^ c) ^^^ d
    else if i < 60 then ((b &&& c) ||| (b &&& d)) ||| (c &&& d)
    else (b ^^^ c) ^^^ d
  let k :=
    if i < 20 then 1518500249
    else if i < 40 then 1859775393
    else if i < 60 then 2400959708
    else 3395469782
  let temp := (rotl32 a 5 + f + e + k + w) % 4294967296
  (temp, a, rotl32 b 30, c, d)

/-- Processing of one 64-byte chunk of a SHA-1 message. -/
def sha1Chunk (h : Nat × Nat × Nat × Nat × Nat) (chunk : List Nat) :
    Nat × Nat × Nat × Nat × Nat :=
  let ws := (sha1ExtendLoop 64 (bytesToWordsBE chunk).reverse).reverse
  let r := ((List.range 80).zip ws).foldl (fun st iw => sha1Round iw.1 st iw.2) h
  ((h.1 + r.1) % 4294967296,
   (h.2.1 + r.2.1) % 4294967296,
   (h.2.2.1 + r.2.2.1) % 4294967296,
   (h.2.2.2.1 + r.2.2.2.1) % 4294967296,
   (h.2.2.2.2 + r.2.2.2.2) % 4294967296)

/-- The five 32-bit result words of SHA-1 over a byte list. -/
def sha1Words (msg : List Nat) : List Nat :=
  let r := (chunks64 (sha1Pad msg)).foldl sha1Chunk
    (1732584193, 4023233417, 2562383102, 271733878, 3285377520)
  [r.1, r.2.1, r.2.2.1, r.2.2.2.1, r.2.2.2.2]

/-- Lowercase hexadecimal digit for a value below 16. -/
def hexDigit (n : Nat) : Char :=
  if n < 10 then Char.ofNat (48 + n) else Char.ofNat (87 + n)

/-- Eight-character lowercase hexadecimal rendering of a 32-bit word. -/
def toHex8 (n : Nat) : List Char :=
  (List.range 8).map (fun i => hexDigit ((n >>> (4 * (7 - i))) % 16))

/-- UTF-8 bytes of a string, the embedding of python `s.encode('utf-8')`:
each character is encoded by the standard UTF-8 character encoding (the
same function underlying `String.toUTF8`). -/
def strBytes (s : String) : List Nat :=
  (s.data.flatMap String.utf8EncodeChar).map (fun b => b.toNat)

/-- Embedding of the `Cli.package_spec_hash` property (vpyapp.py lines
198-204): the lowercase hexadecimal SHA-1 digest of the canonical spec's
UTF-8 bytes.  The source memoizes the value in `_package_spec_hash`; the
memoization caches this pure function and is observationally invisible. -/
def package_spec_hash (package_spec : String) : String :=
  String.mk ((sha1Words (strBytes package_spec)).map toHex8).flatten

/-- Session state of the `Cli` object: the set-once canonical package spec
binding `_package_spec` (vpyapp.py line 166).  The memoized hash and
environment-map fields are caches of pure functions and are not state. -/
structure CliState where
  pspec : Option String
deriving DecidableEq, Repr

/-- Embedding of the `package_spec` setter (vpyapp.py lines 191-196):
normalize the incoming spec, assert that no different canonical spec is
already bound, then bind. -/
def set_package_spec (N q : String → String) (st : CliState) (spec : String) :
    Except PyError CliState :=
  let s := normalize_package_spec N q spec
  if st.pspec = none ∨ st.pspec = some s then .ok ⟨some s⟩
  else .error .assertionError

/-- An environment-variable map: an ordered association list with unique
keys, the embedding of a python `dict` of environment variables. -/
abbrev Env : Type := List (String × String)

/-- Lookup of a key, the embedding of `k in env` tests and guarded reads. -/
def envGet : Env → String → Option String
  | [], _ => none
  | (k', v) :: rest, k => if k' = k then some v else envGet rest k

/-- Key-presence test, the embedding of the python expression `k in env`. -/
def envContains (env : Env) (k : String) : Bool :=
  (envGet env k).isSome

/-- Unguarded read `env[k]`: raises KeyError when the key is absent. -/
def envGetE (env : Env) (k : String) : Except PyError String :=
  match envGet env k with
  | some v => .ok v
  | none => .error .keyError

/-- Deletion `del env[k]`. -/
def envDel (env : Env) (k : String) : Env :=
  env.filter (fun kv => kv.1 ≠ k)

/-- Assignment `env[k] = v`: replaces in place, preserving order, or
appends a new binding. -/
def envSet : Env → String → String → Env
  | [], k, v => [(k, v)]
  | (k', v') :: rest, k, v =>
    if k' = k then (k, v) :: rest else (k', v') :: envSet rest k v

/-- Embedding of `deactivate_virtualenv` (vpyapp.py lines 119-129) on an
explicit environment map: if the activation marker `VIRTUAL_ENV` is
present, read it, delete it, delete `POETRY_ACTIVE` when present, and, when
`PATH` is present, remove the recorded environment's `bin` directory from
it.  Each unguarded dictionary read is modelled as a fallible `envGetE`. -/
def deactivate_virtualenv (N : String → String) (env : Env) : Except PyError Env :=
  if envContains env "VIRTUAL_ENV" then
    match envGetE env "VIRTUAL_ENV" with
    | .error e => .error e
    | .ok venv =>
      let env1 := envDel env "VIRTUAL_ENV"
      let env2 := if envContains env1 "POETRY_ACTIVE" then envDel env1 "POETRY_ACTIVE" else env1
      if envContains env2 "PATH" then
        match envGetE env2 "PATH" with
        | .error e => .error e
        | .ok p =>
          .ok (envSet env2 "PATH" (searchpath_remove_dir N p (pjoin venv "bin")))
      else .ok env2
  else .ok env

/-- Embedding of `activate_virtualenv` (vpyapp.py lines 131-138): normalize
the environment directory, deactivate any prior activation, set the
activation marker, then prepend the `bin` subdirectory to `PATH`.  The
read `env['PATH']` is unguarded and raises KeyError when `PATH` is
absent. -/
def activate_virtualenv (N : String → String) (venv_dir : String) (env : Env) :
    Except PyError Env :=
  let vd := N venv_dir
  let venv_bin_dir := pjoin vd "bin"
  match deactivate_virtualenv N env with
  | .error e => .error e
  | .ok env1 =>
    let env2 := envSet env1 "VIRTUAL_ENV" vd
    match envGetE env2 "PATH" with
    | .error e => .error e
    | .ok p => .ok (envSet env2 "PATH" (searchpath_prepend_if_missing N p venv_bin_dir))

/-- Observable provisioning actions of the lifecycle engine, recorded in
an execution trace: each constructor names one external-tool invocation or
record-directory mutation performed by `do_install`, `remove_appdir` or
`cmd_run`. -/
inductive Event where
  | aptInstall
  | removeAppdir
  | makeDirs
  | installVenv
  | venvCreate
  | ensurePip
  | pipUpgradePip
  | pipInstallWheel
  | pipInstallPackage
  | writeMarker
  | spawnTarget
deriving DecidableEq, Repr

/-- The world a lifecycle session acts on: a flat set of existing
filesystem paths, an oracle giving the outcome of every host probe
(`probe`: is a module importable, is an OS package installed) and of every
external-tool invocation (`ext`: true means the spawned command exits
zero), cursors into the two oracle streams, and the trace of performed
actions. -/
structure World where
  fs : List String
  probe : Nat → Bool
  ext : Nat → Bool
  probeIdx : Nat
  extIdx : Nat
  trace : List Event

/-- State-with-exceptions monad of the lifecycle model: python exceptions
propagate while the world state at the raise point is retained, exactly as
a raised exception leaves mutated disk state behind. -/
def M (α : Type) : Type := World → Except PyError α × World

instance : Monad M where
  pure a := fun w => (.ok a, w)
  bind x f := fun w =>
    match x w with
    | (.ok a, w') => f a w'
    | (.error e, w') => (.error e, w')

/-- Existence test on the world's path set, the embedding of
`os.path.exists` (and of `os.path.isdir` for paths the model only ever
uses as directories). -/
def fsExists (p : String) : M Bool := fun w => (.ok (p ∈ w.fs), w)

/-- Records a path as existing, for directory creation and file writes. -/
def fsAdd (p : String) : M Unit := fun w => (.ok (), { w with fs := p :: w.fs })

/-- Embedding of `os.remove(p)`: drops the single path. -/
def fsRemoveFile (p : String) : M Unit :=
  fun w => (.ok (), { w with fs := w.fs.filter (fun q => q ≠ p) })

/-- Embedding of `rm -fr p`: drops the path and everything below it. -/
def fsRemoveTree (p : String) : M Unit :=
  fun w =>
    (.ok (), { w with
      fs := w.fs.filter (fun q => ¬ (q = p ∨ (pjoin p "").data.isPrefixOf q.data)) })

/-- Draws the next host-probe result from the oracle. -/
def nextProbe : M Bool :=
  fun w => (.ok (w.probe w.probeIdx), { w with probeIdx := w.probeIdx + 1 })

/-- Invocation of an external tool via `subprocess.check_call`: records the
attempt in the trace, consumes one oracle outcome, and raises
CalledProcessError when the tool exits nonzero. -/
def extCall (ev : Event) : M Unit := fun w =>
  if w.ext w.extIdx then
    (.ok (), { w with extIdx := w.extIdx + 1, trace := w.trace ++ [ev] })
  else
    (.error .calledProcessError,
      { w with extIdx := w.extIdx + 1, trace := w.trace ++ [ev] })

/-- Records an action that never raises (`subprocess.call` ignores the
exit status of `rm -fr`). -/
def logEvent (ev : Event) : M Unit :=
  fun w => (.ok (), { w with trace := w.trace ++ [ev] })

/-- Record-directory layout under the cache root (vpyapp.py lines 159-161,
206-220): all paths are derived from the home directory and the identity
hash. -/
def app_dir (home hash : String) : String :=
  pjoin (pjoin (pjoin (pjoin home ".cache") "vpyapp") "apps") hash

/-- The marker file `package-spec.txt` of a record. -/
def package_spec_filename (home hash : String) : String :=
  pjoin (app_dir home hash) "package-spec.txt"

/-- The isolated runtime subtree `.venv` of a record. -/
def app_venv_dir (home hash : String) : String :=
  pjoin (app_dir home hash) ".venv"

/-- The runtime interpreter binary of a record. -/
def python_prog (home hash : String) : String :=
  pjoin (pjoin (app_venv_dir home hash) "bin") "python3"

/-- The package-manager binary of a record. -/
def pip_prog (home hash : String) : String :=
  pjoin (pjoin (app_venv_dir home hash) "bin") "pip3"

/-- Embedding of `Cli.remove_appdir` (vpyapp.py lines 251-255): remove the
marker file if it exists, then remove the whole record directory tree if
it exists.  The tree removal runs `rm -fr` through `subprocess.call`,
which ignores the exit status, so the removal itself never raises. -/
def remove_appdir (home hash : String) : M Unit := do
  logEvent .removeAppdir
  let m := package_spec_filename home hash
  let mE ← fsExists m
  if mE then fsRemoveFile m
  let d := app_dir home hash
  let dE ← fsExists d
  if dE then fsRemoveTree d

/-- The body of the `try` block of `Cli.do_install` (vpyapp.py lines
355-419), for an already-bound canonical spec with identity `hash`:
probe for `distutils` and the `python3-dev` OS package and invoke the host
package manager when either is missing; destroy the record when `clean` is
set or the marker, interpreter or package manager is missing; create the
record directory, runtime environment and package manager as needed;
run the requested install and upgrade steps; and write the marker file
last, only when it is absent. -/
def doInstallTry (home hash : String) (update clean : Bool) : M String := do
  let distutilsPresent ← nextProbe
  let py3devInstalled ← nextProbe
  if !distutilsPresent || !py3devInstalled then extCall .aptInstall
  let python := python_prog home hash
  let pip := pip_prog home hash
  let marker := package_spec_filename home hash
  let appDir := app_dir home hash
  let venvDir := app_venv_dir home hash
  let markerE ← fsExists marker
  let pythonE ← fsExists python
  let pipE ← fsExists pip
  if clean || !markerE || !pythonE || !pipE then remove_appdir home hash
  let dirE ← fsExists appDir
  if !dirE then do
    extCall .makeDirs
    fsAdd appDir
  let pipE1 ← fsExists pip
  if !pipE1 then extCall .installVenv
  let venvE ← fsExists venvDir
  let isUpdatedVenv ←
    if !venvE then do
      extCall .venvCreate
      fsAdd venvDir
      fsAdd (python_prog home hash)
      pure true
    else pure false
  let pipE2 ← fsExists pip
  if !pipE2 then do
    extCall .ensurePip
    fsAdd pip
  if update then extCall .pipUpgradePip
  if update || isUpdatedVenv then do
    extCall .pipInstallWheel
    extCall .pipInstallPackage
  let markerE2 ← fsExists marker
  if !markerE2 then do
    extCall .writeMarker
    fsAdd marker
  pure appDir

/-- Embedding of `Cli.do_install` (vpyapp.py lines 341-427): bind the
canonical spec (the setter's assertion may raise before any provisioning
starts), then run the provisioning sequence; on any exception from it,
delete the record directory and marker via `remove_appdir` and re-raise.
In the model the cleanup itself cannot raise, which matches the source's
`try: self.remove_appdir() except Exception: pass` under reliable removal
primitives.  Returns the new session state and the record directory. -/
def do_install (N q : String → String) (home : String) (st : CliState)
    (package_spec : String) (update clean : Bool) : M (CliState × String) := fun w =>
  let spec := normalize_package_spec N q package_spec
  if st.pspec = none ∨ st.pspec = some spec then
    let hash := package_spec_hash spec
    match doInstallTry home hash update clean w with
    | (.ok dir, w1) => (.ok (⟨some spec⟩, dir), w1)
    | (.error e, w1) => (.error e, (remove_appdir home hash w1).2)
  else (.error .assertionError, w)

/-- Embedding of `Cli.cmd_run` (vpyapp.py lines 448-488): provision the
package (in verbose mode with inherited output, otherwise with output
captured to a temporary log that is dumped on failure; the difference is
presentation only and has no effect on world state), then, only when the
remaining command list is nonempty, resolve its first element against the
record's `bin` directory and spawn it in the activated environment. -/
def cmd_run (N q : String → String) (home : String) (st : CliState)
    (package_spec : String) (update clean verbose : Bool)
    (app_cmd : List String) : M Nat := do
  if verbose then
    let _ ← do_install N q home st package_spec update clean
    pure ()
  else
    let _ ← do_install N q home st package_spec update clean
    pure ()
  if app_cmd.length > 0 then extCall .spawnTarget
  pure 0

@[simp] theorem M_bind_apply {α β : Type} (x : M α) (f : α → M β) (w : World) :
    (x >>= f) w =
      match x w with
      | (.ok a, w') => f a w'
      | (.error e, w') => (.error e, w') := rfl

@[simp] theorem M_pure_apply {α : Type} (a : α) (w : World) :
    (pure a : M α) w = (.ok a, w) := rfl

theorem pyIn_colon_file_uri (x : String) : pyIn ':' ("file://" ++ x) = true := by
  have hm : ':' ∈ ("file://" ++ x).data := by
    rw [String.data_append]
    exact List.mem_append_left _ (by decide)
  simp only [pyIn, List.contains_iff_exists_mem_beq]
  exact ⟨':', hm, by simp⟩

/-- Claim C3: for every raw package specification string s, normalization
is idempotent: normalizing an already-normalized spec yields the same
string, for every directory-normalization function N and quoting
function q (in particular the ones python uses). -/
theorem C3_normalize_idempotent (N q : String → String) (s : String) :
    normalize_package_spec N q (normalize_package_spec N q s) =
      normalize_package_spec N q s := by
  by_cases h : ¬ pyIn ':' s ∧ (pyIn '/' s ∨ pyIn '#' s ∨ pyEndsWith s ".gz")
  · have h1 : normalize_package_spec N q s = "file://" ++ q (N s) := by
      simp [normalize_package_spec, h]
    rw [h1]
    simp [normalize_package_spec, pyIn_colon_file_uri]
  · have h1 : normalize_package_spec N q s = s := by
      unfold normalize_package_spec
      rw [if_neg h]
    rw [h1]
    exact h1

theorem hexDigit_mem_hexChars (m : Nat) :
    hexDigit (m % 16) ∈ ("0123456789abcdef").data := by
  have hb : ∀ r, r < 16 → hexDigit r ∈ ("0123456789abcdef").data := by decide
  exact hb _ (Nat.mod_lt _ (by norm_num))

theorem toHex8_length (n : Nat) : (toHex8 n).length = 8 := by
  simp [toHex8]

theorem toHex8_mem (n : Nat) (ch : Char) (h : ch ∈ toHex8 n) :
    ch ∈ ("0123456789abcdef").data := by
  simp only [toHex8, List.mem_map] at h
  obtain ⟨i, _, rfl⟩ := h
  exact hexDigit_mem_hexChars _

/-- Claim C4: for every canonical spec c, the identity is a 40-character
lowercase hexadecimal digest (the SHA-1 hex digest of c's UTF-8 bytes),
and it is a deterministic pure function of c alone: identical canonical
specs always yield identical identities.  Determinism across calls,
restarts and environments is inherent: `package_spec_hash` is a pure
function of the spec string with no other inputs. -/
theorem C4_identity_deterministic_hex (c : String) :
    (package_spec_hash c).length = 40 ∧
    (∀ ch ∈ (package_spec_hash c).data, ch ∈ ("0123456789abcdef").data) ∧
    (∀ c2 : String, c = c2 → package_spec_hash c = package_spec_hash c2) := by
  refine ⟨?_, ?_, ?_⟩
  · show (String.mk ((sha1Words (strBytes c)).map toHex8).flatten).length = 40
    have : ∀ l : List Char, (String.mk l).length = l.length := fun l => rfl
    rw [this, sha1Words]
    simp [toHex8_length]
  · intro ch hch
    have hm : ch ∈ ((sha1Words (strBytes c)).map toHex8).flatten := hch
    rw [List.mem_flatten] at hm
    obtain ⟨l, hl, hchl⟩ := hm
    rw [List.mem_map] at hl
    obtain ⟨n, _, rfl⟩ := hl
    exact toHex8_mem n ch hchl
  · intro c2 h
    rw [h]

/-- Claim C5: once a session's package spec is bound, setting it again with
a raw spec that normalizes to a different canonical spec fails with the
invariant-violation assertion, while setting it again with a spec that
normalizes to the same canonical spec succeeds and leaves the binding
unchanged. -/
theorem C5_rebind_invariant (N q : String → String) (st : CliState) (c raw : String)
    (hb : st.pspec = some c) :
    (normalize_package_spec N q raw ≠ c →
      set_package_spec N q st raw = .error .assertionError) ∧
    (normalize_package_spec N q raw = c →
      set_package_spec N q st raw = .ok st) := by
  constructor
  · intro hne
    unfold set_package_spec
    rw [if_neg]
    simp [hb]
    exact fun h => hne h.symm
  · intro heq
    unfold set_package_spec
    rw [if_pos]
    · cases st
      simp_all
    · right
      rw [hb, heq]

/-- Witness for C5 at concrete inputs: with the canonical spec
"file:///pkg" bound (the normalization of the local path "/pkg"),
rebinding to "/other" - which normalizes to the different canonical spec
"file:///other" - fails with the assertion error, and rebinding to
"/pkg" again succeeds and leaves the binding unchanged. -/
theorem C5_rebind_invariant_witness :
    (⟨some "file:///pkg"⟩ : CliState).pspec = some "file:///pkg" ∧
    set_package_spec (fun s => s) (fun s => s) ⟨some "file:///pkg"⟩ "/other" =
      .error .assertionError ∧
    set_package_spec (fun s => s) (fun s => s) ⟨some "file:///pkg"⟩ "/pkg" =
      .ok ⟨some "file:///pkg"⟩ := by
  refine ⟨rfl, ?_, ?_⟩
  · exact (C5_rebind_invariant (fun s => s) (fun s => s) ⟨some "file:///pkg"⟩
      "file:///pkg" "/other" rfl).1 (by decide)
  · exact (C5_rebind_invariant (fun s => s) (fun s => s) ⟨some "file:///pkg"⟩
      "file:///pkg" "/pkg" rfl).2 (by decide)

/-- Counterexample for claim C7 as stated: over the sequence
["/a", "/b"] and directory "/b" (already normalized, so the directory
normalization is the identity here), applying prependIfMissing twice
leaves the sequence unchanged, so the single occurrence of "/b" stays at
position 1, not at the front. -/
theorem C7_counterexample :
    ¬ (((searchpath_parts_prepend_if_missing (fun s => s)
          (searchpath_parts_prepend_if_missing (fun s => s) ["/a", "/b"] "/b")
          "/b").count "/b" = 1) ∧
       (searchpath_parts_prepend_if_missing (fun s => s)
          (searchpath_parts_prepend_if_missing (fun s => s) ["/a", "/b"] "/b")
          "/b").head? = some "/b") := by
  decide

/-- Claim C7 amended: applying prependIfMissing twice with the same
directory is the same as applying it once - for EVERY input sequence,
whether or not the directory is already present - and when the
normalized directory is absent from the input sequence the result
contains it exactly once, at the front (position 0).  (When it is
already present the source keeps the sequence unchanged, existing
position and multiplicity preserved, so the original unconditional
claim fails.) -/
theorem C7_prepend_if_missing_twice (N : String → String) (parts : List String)
    (d : String) :
    searchpath_parts_prepend_if_missing N
        (searchpath_parts_prepend_if_missing N parts d) d =
      searchpath_parts_prepend_if_missing N parts d ∧
    (N d ∉ parts →
      (searchpath_parts_prepend_if_missing N
          (searchpath_parts_prepend_if_missing N parts d) d).count (N d) = 1 ∧
      (searchpath_parts_prepend_if_missing N
          (searchpath_parts_prepend_if_missing N parts d) d).head? = some (N d)) := by
  constructor
  · by_cases hmem : N d ∈ parts
    · have h1 : searchpath_parts_prepend_if_missing N parts d = parts := by
        unfold searchpath_parts_prepend_if_missing
        exact if_pos hmem
      rw [h1, h1]
    · have h1 : searchpath_parts_prepend_if_missing N parts d = N d :: parts := by
        unfold searchpath_parts_prepend_if_missing
        exact if_neg hmem
      have h2 : searchpath_parts_prepend_if_missing N (N d :: parts) d = N d :: parts := by
        unfold searchpath_parts_prepend_if_missing
        exact if_pos (List.mem_cons_self _ _)
      rw [h1, h2]
  · intro h
    have h1 : searchpath_parts_prepend_if_missing N parts d = N d :: parts := by
      unfold searchpath_parts_prepend_if_missing
      exact if_neg h
    have h2 : searchpath_parts_prepend_if_missing N (N d :: parts) d = N d :: parts := by
      unfold searchpath_parts_prepend_if_missing
      exact if_pos (List.mem_cons_self _ _)
    rw [h1, h2]
    refine ⟨?_, rfl⟩
    rw [List.count_cons_self, List.count_eq_zero.2 h]

/-- Witness for C7 at concrete inputs, exercising both cases of the
theorem: prepending the already-present "/b" twice to ["/a", "/b"]
equals prepending it once (idempotence in the present case), and
prepending the absent "/c" twice to ["/a", "/b"] yields
["/c", "/a", "/b"], with "/c" exactly once and at the front. -/
theorem C7_prepend_if_missing_twice_witness :
    (searchpath_parts_prepend_if_missing (fun s => s)
        (searchpath_parts_prepend_if_missing (fun s => s) ["/a", "/b"] "/b") "/b" =
      searchpath_parts_prepend_if_missing (fun s => s) ["/a", "/b"] "/b") ∧
    ("/c" ∉ (["/a", "/b"] : List String)) ∧
    (searchpath_parts_prepend_if_missing (fun s => s)
        (searchpath_parts_prepend_if_missing (fun s => s) ["/a", "/b"] "/c")
        "/c").count "/c" = 1 ∧
    (searchpath_parts_prepend_if_missing (fun s => s)
        (searchpath_parts_prepend_if_missing (fun s => s) ["/a", "/b"] "/c")
        "/c").head? = some "/c" :=
  ⟨(C7_prepend_if_missing_twice (fun s => s) ["/a", "/b"] "/b").1,
   by decide,
   ((C7_prepend_if_missing_twice (fun s => s) ["/a", "/b"] "/c").2 (by decide)).1,
   ((C7_prepend_if_missing_twice (fun s => s) ["/a", "/b"] "/c").2 (by decide)).2⟩

/-- Counterexample for claim C8 as stated: the input sequence
["/x", "/x"] already carries a duplicate, and prependIfMissing of the
absent directory "/y" keeps it, so the result ["/y", "/x", "/x"] has
duplicate entries. -/
theorem C8_counterexample :
    ¬ (searchpath_parts_prepend_if_missing (fun s => s) ["/x", "/x"] "/y").Nodup := by
  decide

/-- Claim C8 amended: for every input sequence WITHOUT duplicate entries
and every directory, the result of each mutating search-path operation
(prepend, prependIfMissing, append, forceAppend, removeDir) again has no
duplicate entries.  The directory normalization N is idempotent for the
function the source uses (abspath of a normalized absolute path is
itself), which the double normalization inside prepend and forceAppend
relies on.  (On inputs that already contain duplicates the operations
preserve them, so the original claim over every input sequence fails.) -/
theorem C8_mutating_ops_nodup (N : String → String) (hN : ∀ x, N (N x) = N x)
    (parts : List String) (d : String) (h : parts.Nodup) :
    (searchpath_parts_prepend N parts d).Nodup ∧
    (searchpath_parts_prepend_if_missing N parts d).Nodup ∧
    (searchpath_parts_append N parts d).Nodup ∧
    (searchpath_parts_force_append N parts d).Nodup ∧
    (searchpath_parts_remove_dir N parts d).Nodup := by
  have hfilter : ∀ k : String, (parts.filter (fun x => x ≠ k)).Nodup :=
    fun k => h.filter _
  have hnotmem : ∀ k : String, k ∉ parts.filter (fun x => x ≠ k) := by
    intro k hk
    rw [List.mem_filter] at hk
    simp at hk
  refine ⟨?_, ?_, ?_, ?_, hfilter _⟩
  · unfold searchpath_parts_prepend searchpath_parts_remove_dir
    rw [List.nodup_cons, hN]
    exact ⟨hnotmem _, hfilter _⟩
  · unfold searchpath_parts_prepend_if_missing
    by_cases hmem : N d ∈ parts
    · rw [if_pos hmem]
      exact h
    · rw [if_neg hmem, List.nodup_cons]
      exact ⟨hmem, h⟩
  · unfold searchpath_parts_append
    by_cases hmem : N d ∈ parts
    · rw [if_pos hmem]
      exact h
    · rw [if_neg hmem]
      simp [List.nodup_append, h]
      intro hx
      exact absurd hx hmem
  · unfold searchpath_parts_force_append searchpath_parts_remove_dir
    simp only [List.nodup_append, hN]
    refine ⟨hfilter _, List.nodup_singleton _, ?_⟩
    intro a ha hb
    rw [List.mem_singleton] at hb
    subst hb
    exact hnotmem _ ha

/-- Witness for C8 at concrete inputs: all five mutating operations keep
the duplicate-free sequence ["/a", "/b"] duplicate-free when applied with
the directory "/b". -/
theorem C8_mutating_ops_nodup_witness :
    (∀ x : String, (fun s => s) ((fun s => s) x) = (fun s => s) x) ∧
    (["/a", "/b"] : List String).Nodup ∧
    ((searchpath_parts_prepend (fun s => s) ["/a", "/b"] "/b").Nodup ∧
     (searchpath_parts_prepend_if_missing (fun s => s) ["/a", "/b"] "/b").Nodup ∧
     (searchpath_parts_append (fun s => s) ["/a", "/b"] "/b").Nodup ∧
     (searchpath_parts_force_append (fun s => s) ["/a", "/b"] "/b").Nodup ∧
     (searchpath_parts_remove_dir (fun s => s) ["/a", "/b"] "/b").Nodup) :=
  ⟨fun _ => rfl, by decide,
    C8_mutating_ops_nodup (fun s => s) (fun _ => rfl) ["/a", "/b"] "/b" (by decide)⟩

theorem splitChar_not_mem (c : Char) (l : List Char) :
    ∀ g ∈ splitChar c l, c ∉ g := by
  induction l with
  | nil =>
    intro g hg
    simp only [splitChar, List.mem_singleton] at hg
    subst hg
    exact List.not_mem_nil c
  | cons x xs ih =>
    intro g hg
    unfold splitChar at hg
    by_cases hx : x = c
    · rw [if_pos hx] at hg
      rcases List.mem_cons.1 hg with h1 | h1
      · subst h1; exact List.not_mem_nil c
      · exact ih g h1
    · rw [if_neg hx] at hg
      rcases hsp : splitChar c xs with _ | ⟨g0, gs⟩
      · rw [hsp] at hg
        simp only [List.mem_singleton] at hg
        subst hg
        intro hc
        rcases List.mem_cons.1 hc with h2 | h2
        · exact hx h2.symm
        · exact absurd h2 (List.not_mem_nil c)
      · rw [hsp] at hg
        rcases List.mem_cons.1 hg with h1 | h1
        · subst h1
          intro hc
          rcases List.mem_cons.1 hc with h2 | h2
          · exact hx h2.symm
          · exact ih g0 (by rw [hsp]; exact List.mem_cons_self _ _) h2
        · exact ih g (by rw [hsp]; exact List.mem_cons.2 (Or.inr h1))

theorem splitChar_single (c : Char) (x : List Char) (hx : c ∉ x) :
    splitChar c x = [x] := by
  induction x with
  | nil => rfl
  | cons a as ih =>
    have ha : ¬ a = c := fun h => hx (h ▸ List.mem_cons_self a as)
    unfold splitChar
    rw [if_neg ha, ih (fun h => hx (List.mem_cons_of_mem a h))]

theorem splitChar_append_cons (c : Char) (x rest : List Char) (hx : c ∉ x) :
    splitChar c (x ++ c :: rest) = x :: splitChar c rest := by
  induction x with
  | nil =>
    simp only [List.nil_append]
    conv_lhs => rw [splitChar]
    rw [if_pos rfl]
  | cons a as ih =>
    have ha : ¬ a = c := fun h => hx (h ▸ List.mem_cons_self a as)
    have ih2 := ih (fun h => hx (List.mem_cons_of_mem a h))
    simp only [List.cons_append]
    conv_lhs => rw [splitChar]
    rw [if_neg ha, ih2]

theorem splitChar_joinChar (c : Char) (ls : List (List Char)) (hne : ls ≠ [])
    (h : ∀ l ∈ ls, c ∉ l) : splitChar c (joinChar c ls) = ls := by
  induction ls with
  | nil => exact absurd rfl hne
  | cons x xs ih =>
    cases xs with
    | nil =>
      show splitChar c (joinChar c [x]) = [x]
      rw [joinChar]
      exact splitChar_single c x (h x (List.mem_cons_self _ _))
    | cons y ys =>
      rw [joinChar, splitChar_append_cons c x _ (h x (List.mem_cons_self _ _))]
      rw [ih (by simp) (fun l hl => h l (List.mem_cons_of_mem x hl))]

theorem searchpath_split_join (parts : List String)
    (h : ∀ p ∈ parts, p ≠ "" ∧ pyIn ':' p = false) :
    searchpath_split (searchpath_join parts) = parts := by
  unfold searchpath_split searchpath_join
  cases parts with
  | nil => rfl
  | cons p ps =>
    rw [splitChar_joinChar]
    · have hmk : (((p :: ps).map String.data).map String.mk) = p :: ps := by
        rw [List.map_map]
        have : (String.mk ∘ String.data) = id := by
          funext s
          cases s
          rfl
        rw [this, List.map_id]
      rw [hmk]
      rw [List.filter_eq_self]
      intro a ha
      exact decide_eq_true (h a ha).1
    · simp
    · intro l hl
      rw [List.mem_map] at hl
      obtain ⟨p', hp', rfl⟩ := hl
      intro hc
      have hco : p'.data.contains ':' = true :=
        List.contains_iff_exists_mem_beq.2 ⟨':', hc, by simp⟩
      have hfa := (h p' hp').2
      unfold pyIn at hfa
      rw [hco] at hfa
      simp at hfa

theorem searchpath_split_good (s : String) :
    ∀ p ∈ searchpath_split s, p ≠ "" ∧ pyIn ':' p = false := by
  intro p hp
  unfold searchpath_split at hp
  rw [List.mem_filter] at hp
  obtain ⟨hp1, hp2⟩ := hp
  refine ⟨by simpa using hp2, ?_⟩
  rw [List.mem_map] at hp1
  obtain ⟨g, hg, rfl⟩ := hp1
  have hnc := splitChar_not_mem ':' s.data g hg
  unfold pyIn
  rw [Bool.eq_false_iff]
  intro hc
  rw [List.contains_iff_exists_mem_beq] at hc
  obtain ⟨a, ha, hab⟩ := hc
  rw [beq_iff_eq] at hab
  exact hnc (hab ▸ ha)

theorem contains_dir_remove_dir_false (N : String → String) (s d : String) :
    searchpath_contains_dir N (searchpath_remove_dir N s d) d = false := by
  unfold searchpath_contains_dir searchpath_parts_contains_dir searchpath_remove_dir
  rw [searchpath_split_join]
  · unfold searchpath_parts_remove_dir
    simp only [decide_eq_false_iff_not, List.mem_filter]
    simp
  · intro p hp
    exact searchpath_split_good s p (List.mem_of_mem_filter hp)

theorem envGet_envSet_self (env : Env) (k v : String) :
    envGet (envSet env k v) k = some v := by
  induction env with
  | nil => simp [envSet, envGet]
  | cons kv rest ih =>
    obtain ⟨k', v'⟩ := kv
    unfold envSet
    by_cases hk : k' = k
    · rw [if_pos hk]
      simp [envGet]
    · rw [if_neg hk]
      unfold envGet
      rw [if_neg hk]
      exact ih

theorem envGet_envSet_ne (env : Env) (k k2 v : String) (h : k ≠ k2) :
    envGet (envSet env k v) k2 = envGet env k2 := by
  induction env with
  | nil => simp [envSet, envGet, h]
  | cons kv rest ih =>
    obtain ⟨k', v'⟩ := kv
    unfold envSet
    by_cases hk : k' = k
    · rw [if_pos hk]
      unfold envGet
      rw [if_neg (hk ▸ h), if_neg (by rw [hk]; exact h)]
    · rw [if_neg hk]
      unfold envGet
      by_cases hk2 : k' = k2
      · rw [if_pos hk2, if_pos hk2]
      · rw [if_neg hk2, if_neg hk2]
        exact ih

theorem envGet_envDel_self (env : Env) (k : String) :
    envGet (envDel env k) k = none := by
  induction env with
  | nil => rfl
  | cons kv rest ih =>
    obtain ⟨k', v'⟩ := kv
    unfold envDel at ih ⊢
    rw [List.filter_cons]
    by_cases hk : k' = k
    · rw [if_neg (by simp [hk])]
      exact ih
    · rw [if_pos (by simp [hk])]
      unfold envGet
      rw [if_neg hk]
      exact ih

theorem envGet_envDel_ne (env : Env) (k k2 : String) (h : k ≠ k2) :
    envGet (envDel env k) k2 = envGet env k2 := by
  induction env with
  | nil => rfl
  | cons kv rest ih =>
    obtain ⟨k', v'⟩ := kv
    unfold envDel at ih ⊢
    rw [List.filter_cons]
    by_cases hk : k' = k
    · rw [if_neg (by simp [hk])]
      rw [ih]
      have hstep : envGet ((k', v') :: rest) k2 = envGet rest k2 := by
        conv_lhs => rw [envGet]
        rw [if_neg (by rw [hk]; exact h)]
      rw [hstep]
    · rw [if_pos (by simp [hk])]
      unfold envGet
      by_cases hk2 : k' = k2
      · rw [if_pos hk2, if_pos hk2]
      · rw [if_neg hk2, if_neg hk2]
        exact ih

theorem deactivate_no_marker (N : String → String) (env : Env)
    (h : envGet env "VIRTUAL_ENV" = none) :
    deactivate_virtualenv N env = .ok env := by
  have hc : envContains env "VIRTUAL_ENV" = false := by
    unfold envContains
    rw [h]
    rfl
  unfold deactivate_virtualenv
  rw [hc]
  simp

theorem deactivate_with_marker (N : String → String) (env : Env) (venv : String)
    (hv : envGet env "VIRTUAL_ENV" = some venv) :
    deactivate_virtualenv N env =
      (let env1 := envDel env "VIRTUAL_ENV"
       let env2 :=
         if envContains env1 "POETRY_ACTIVE" then envDel env1 "POETRY_ACTIVE" else env1
       match envGet env2 "PATH" with
       | none => .ok env2
       | some p =>
         .ok (envSet env2 "PATH" (searchpath_remove_dir N p (pjoin venv "bin")))) := by
  have hc : envContains env "VIRTUAL_ENV" = true := by
    unfold envContains
    rw [hv]
    rfl
  unfold deactivate_virtualenv
  rw [hc]
  simp only [if_true]
  unfold envGetE
  rw [hv]
  simp only []
  set env2 :=
    if envContains (envDel env "VIRTUAL_ENV") "POETRY_ACTIVE" then
      envDel (envDel env "VIRTUAL_ENV") "POETRY_ACTIVE"
    else envDel env "VIRTUAL_ENV" with henv2
  cases hP : envGet env2 "PATH" with
  | none =>
    have hcP : envContains env2 "PATH" = false := by
      unfold envContains
      rw [hP]
      rfl
    rw [hcP]
    simp
  | some p =>
    have hcP : envContains env2 "PATH" = true := by
      unfold envContains
      rw [hP]
      rfl
    rw [hcP]
    simp only [if_true]

theorem deactivate_path_none (N : String → String) (env : Env)
    (h : envGet env "PATH" = none) :
    ∃ env', deactivate_virtualenv N env = .ok env' ∧ envGet env' "PATH" = none := by
  cases hv : envGet env "VIRTUAL_ENV" with
  | none => exact ⟨env, deactivate_no_marker N env hv, h⟩
  | some venv =>
    rw [deactivate_with_marker N env venv hv]
    have h1 : envGet (envDel env "VIRTUAL_ENV") "PATH" = none := by
      rw [envGet_envDel_ne _ _ _ (by decide)]
      exact h
    by_cases hp : envContains (envDel env "VIRTUAL_ENV") "POETRY_ACTIVE"
    · have h2 : envGet (envDel (envDel env "VIRTUAL_ENV") "POETRY_ACTIVE") "PATH" = none := by
        rw [envGet_envDel_ne _ _ _ (by decide)]
        exact h1
      simp only [if_pos hp, h2]
      exact ⟨_, rfl, h2⟩
    · simp only [if_neg hp, h1]
      exact ⟨_, rfl, h1⟩

theorem deactivate_path_some (N : String → String) (env : Env) (p0 : String)
    (h : envGet env "PATH" = some p0) :
    ∃ env' p', deactivate_virtualenv N env = .ok env' ∧ envGet env' "PATH" = some p' := by
  cases hv : envGet env "VIRTUAL_ENV" with
  | none => exact ⟨env, p0, deactivate_no_marker N env hv, h⟩
  | some venv =>
    rw [deactivate_with_marker N env venv hv]
    have h1 : envGet (envDel env "VIRTUAL_ENV") "PATH" = some p0 := by
      rw [envGet_envDel_ne _ _ _ (by decide)]
      exact h
    by_cases hp : envContains (envDel env "VIRTUAL_ENV") "POETRY_ACTIVE"
    · have h2 : envGet (envDel (envDel env "VIRTUAL_ENV") "POETRY_ACTIVE") "PATH" =
          some p0 := by
        rw [envGet_envDel_ne _ _ _ (by decide)]
        exact h1
      simp only [if_pos hp, h2]
      exact ⟨_, _, rfl, envGet_envSet_self _ _ _⟩
    · simp only [if_neg hp, h1]
      exact ⟨_, _, rfl, envGet_envSet_self _ _ _⟩

/-- Claim C9: for every environment map that does not contain the PATH
key, `activate_virtualenv` raises a KeyError (it reads `env['PATH']`
unconditionally), whereas `deactivate_virtualenv` applied to the same map
never raises - activation has an unstated precondition that a path
variable be present. -/
theorem C9_activate_keyerror_deactivate_total (N : String → String) (dir : String)
    (env : Env) (h : envGet env "PATH" = none) :
    activate_virtualenv N dir env = .error .keyError ∧
    ∃ env', deactivate_virtualenv N env = .ok env' := by
  obtain ⟨env1, hde, hp1⟩ := deactivate_path_none N env h
  constructor
  · unfold activate_virtualenv
    rw [hde]
    have h2 : envGet (envSet env1 "VIRTUAL_ENV" (N dir)) "PATH" = none := by
      rw [envGet_envSet_ne _ _ _ _ (by decide)]
      exact hp1
    simp only [envGetE, h2]
  · exact ⟨env1, hde⟩

/-- Witness for C9 at a concrete input: the map holding only a stale
VIRTUAL_ENV binding and no PATH makes activation raise KeyError while
deactivation succeeds. -/
theorem C9_activate_keyerror_deactivate_total_witness :
    envGet [("VIRTUAL_ENV", "/old")] "PATH" = none ∧
    (activate_virtualenv (fun s => s) "/venv" [("VIRTUAL_ENV", "/old")] =
        .error .keyError ∧
      ∃ env', deactivate_virtualenv (fun s => s) [("VIRTUAL_ENV", "/old")] = .ok env') :=
  ⟨by decide,
    C9_activate_keyerror_deactivate_total (fun s => s) "/venv"
      [("VIRTUAL_ENV", "/old")] (by decide)⟩

/-- Counterexample for claim C6 as stated: on the empty starting
environment map (no PATH variable), `activate_virtualenv` raises KeyError
instead of yielding a map, so the round-trip property cannot hold for
every starting env. -/
theorem C6_counterexample :
    activate_virtualenv (fun s => s) "/venv" [] = .error .keyError := by
  rfl

/-- Claim C6 amended: for every environment map that CONTAINS the path
variable (on a map without PATH activation raises KeyError instead),
deactivate after activate yields a map whose PATH does not contain the
activated directory's bin subdirectory and from which the VIRTUAL_ENV
activation marker has been removed entirely - whether or not a prior
activation was present in the starting map. -/
theorem C6_activation_roundtrip (N : String → String) (dir : String) (env : Env)
    (p0 : String) (h : envGet env "PATH" = some p0) :
    ∃ env1, activate_virtualenv N dir env = .ok env1 ∧
      ∃ env2, deactivate_virtualenv N env1 = .ok env2 ∧
        envGet env2 "VIRTUAL_ENV" = none ∧
        ∃ p, envGet env2 "PATH" = some p ∧
          searchpath_contains_dir N p (pjoin (N dir) "bin") = false := by
  obtain ⟨enva, p1, hde, hp1⟩ := deactivate_path_some N env p0 h
  have h2 : envGet (envSet enva "VIRTUAL_ENV" (N dir)) "PATH" = some p1 := by
    rw [envGet_envSet_ne _ _ _ _ (by decide)]
    exact hp1
  have hact : activate_virtualenv N dir env =
      .ok (envSet (envSet enva "VIRTUAL_ENV" (N dir)) "PATH"
        (searchpath_prepend_if_missing N p1 (pjoin (N dir) "bin"))) := by
    unfold activate_virtualenv
    rw [hde]
    simp only [envGetE, h2]
  refine ⟨_, hact, ?_⟩
  have hvb : envGet (envSet (envSet enva "VIRTUAL_ENV" (N dir)) "PATH"
      (searchpath_prepend_if_missing N p1 (pjoin (N dir) "bin"))) "VIRTUAL_ENV" =
      some (N dir) := by
    rw [envGet_envSet_ne _ _ _ _ (by decide), envGet_envSet_self]
  rw [deactivate_with_marker N _ (N dir) hvb]
  have hpath1 : envGet (envDel (envSet (envSet enva "VIRTUAL_ENV" (N dir)) "PATH"
      (searchpath_prepend_if_missing N p1 (pjoin (N dir) "bin"))) "VIRTUAL_ENV") "PATH" =
      some (searchpath_prepend_if_missing N p1 (pjoin (N dir) "bin")) := by
    rw [envGet_envDel_ne _ _ _ (by decide), envGet_envSet_self]
  by_cases hpo : envContains (envDel (envSet (envSet enva "VIRTUAL_ENV" (N dir)) "PATH"
      (searchpath_prepend_if_missing N p1 (pjoin (N dir) "bin"))) "VIRTUAL_ENV")
      "POETRY_ACTIVE"
  · have hpath2 : envGet (envDel (envDel (envSet (envSet enva "VIRTUAL_ENV" (N dir))
        "PATH" (searchpath_prepend_if_missing N p1 (pjoin (N dir) "bin")))
        "VIRTUAL_ENV") "POETRY_ACTIVE") "PATH" =
        some (searchpath_prepend_if_missing N p1 (pjoin (N dir) "bin")) := by
      rw [envGet_envDel_ne _ _ _ (by decide)]
      exact hpath1
    simp only [if_pos hpo, hpath2]
    refine ⟨_, rfl, ?_, ?_⟩
    · rw [envGet_envSet_ne _ _ _ _ (by decide), envGet_envDel_ne _ _ _ (by decide),
        envGet_envDel_self]
    · exact ⟨_, envGet_envSet_self _ _ _, contains_dir_remove_dir_false N _ _⟩
  · simp only [if_neg hpo, hpath1]
    refine ⟨_, rfl, ?_, ?_⟩
    · rw [envGet_envSet_ne _ _ _ _ (by decide), envGet_envDel_self]
    · exact ⟨_, envGet_envSet_self _ _ _, contains_dir_remove_dir_false N _ _⟩

/-- Witness for C6 at a concrete input: activating "/venv" over a map
whose PATH is "/usr/bin" and then deactivating yields a map with no
VIRTUAL_ENV and a PATH not containing "/venv/bin". -/
theorem C6_activation_roundtrip_witness :
    envGet [("PATH", "/usr/bin")] "PATH" = some "/usr/bin" ∧
    (∃ env1, activate_virtualenv (fun s => s) "/venv" [("PATH", "/usr/bin")] = .ok env1 ∧
      ∃ env2, deactivate_virtualenv (fun s => s) env1 = .ok env2 ∧
        envGet env2 "VIRTUAL_ENV" = none ∧
        ∃ p, envGet env2 "PATH" = some p ∧
          searchpath_contains_dir (fun s => s) p
            (pjoin ((fun s : String => s) "/venv") "bin") = false) :=
  ⟨by decide,
    C6_activation_roundtrip (fun s => s) "/venv" [("PATH", "/usr/bin")] "/usr/bin"
      (by decide)⟩

@[simp] theorem fsExists_apply (p : String) (w : World) :
    fsExists p w = (.ok (decide (p ∈ w.fs)), w) := rfl

@[simp] theorem fsAdd_apply (p : String) (w : World) :
    fsAdd p w = (.ok (), { w with fs := p :: w.fs }) := rfl

@[simp] theorem fsRemoveFile_apply (p : String) (w : World) :
    fsRemoveFile p w =
      (.ok (), { w with fs := w.fs.filter (fun q => decide (q ≠ p)) }) := rfl

@[simp] theorem fsRemoveTree_apply (p : String) (w : World) :
    fsRemoveTree p w =
      (.ok (), { w with
        fs := w.fs.filter
          (fun q => decide (¬ (q = p ∨ (pjoin p "").data.isPrefixOf q.data))) }) := rfl

@[simp] theorem nextProbe_apply (w : World) :
    nextProbe w = (.ok (w.probe w.probeIdx), { w with probeIdx := w.probeIdx + 1 }) := rfl

@[simp] theorem extCall_apply (ev : Event) (w : World) :
    extCall ev w =
      (if w.ext w.extIdx then
        (.ok (), { w with extIdx := w.extIdx + 1, trace := w.trace ++ [ev] })
      else
        (.error .calledProcessError,
          { w with extIdx := w.extIdx + 1, trace := w.trace ++ [ev] })) := rfl

@[simp] theorem logEvent_apply (ev : Event) (w : World) :
    logEvent ev w = (.ok (), { w with trace := w.trace ++ [ev] }) := rfl

@[simp] theorem M_ite_apply {α : Type} (c : Prop) [inst : Decidable c] (x y : M α)
    (w : World) : (if c then x else y) w = if c then x w else y w := by
  split <;> rfl

theorem remove_appdir_clears (home hash : String) (w : World) :
    package_spec_filename home hash ∉ ((remove_appdir home hash) w).2.fs ∧
    app_dir home hash ∉ ((remove_appdir home hash) w).2.fs := by
  simp only [remove_appdir, M_bind_apply, M_ite_apply, M_pure_apply, logEvent_apply,
    fsExists_apply, fsRemoveFile_apply, fsRemoveTree_apply]
  by_cases hm : package_spec_filename home hash ∈ w.fs
  · simp only [hm, decide_True]
    simp only [List.mem_filter]
    by_cases hd2 : app_dir home hash ∈ w.fs ∧ ¬ app_dir home hash = package_spec_filename home hash
    · simp [hd2, List.mem_filter]
    · simp [hd2, List.mem_filter]
  · simp only [hm, decide_False]
    simp only [List.mem_filter]
    by_cases hd : app_dir home hash ∈ w.fs
    · simp [hd, List.mem_filter]
      intro hc
      exact absurd hc hm
    · simp [hd, List.mem_filter]
      exact hm

/-- Claim C1: if any step of the provisioning sequence of `do_install`
(host-prerequisite installation, filesystem setup, environment creation,
bootstrap, or any install or upgrade invocation) raises, then after the
exception is re-raised the record directory for the bound spec's
identity, including its marker file, does not exist on disk; this holds
for every starting world (disk state and oracle) and every combination of
the update and clean flags.  The hypothesis on the session state says the
spec binding itself succeeds, which separates the provisioning sequence
(everything inside the source's `try` block) from the preceding setter
assertion. -/
theorem C1_rollback_on_failure (N q : String → String) (home : String)
    (st : CliState) (raw : String) (update clean : Bool) (w : World) (e : PyError)
    (hbind : st.pspec = none ∨ st.pspec = some (normalize_package_spec N q raw))
    (herr : (do_install N q home st raw update clean w).1 = .error e) :
    package_spec_filename home (package_spec_hash (normalize_package_spec N q raw)) ∉
      (do_install N q home st raw update clean w).2.fs ∧
    app_dir home (package_spec_hash (normalize_package_spec N q raw)) ∉
      (do_install N q home st raw update clean w).2.fs := by
  have hdo : do_install N q home st raw update clean w =
      (match doInstallTry home
          (package_spec_hash (normalize_package_spec N q raw)) update clean w with
       | (.ok dir, w1) => (.ok (⟨some (normalize_package_spec N q raw)⟩, dir), w1)
       | (.error e2, w1) =>
         (.error e2,
           (remove_appdir home
             (package_spec_hash (normalize_package_spec N q raw)) w1).2)) := by
    unfold do_install
    rw [if_pos hbind]
  rcases htry : doInstallTry home
      (package_spec_hash (normalize_package_spec N q raw)) update clean w with ⟨res, w1⟩
  rw [htry] at hdo
  cases res with
  | ok dirv =>
    rw [hdo] at herr
    simp at herr
  | error e2 =>
    rw [hdo]
    exact remove_appdir_clears home
      (package_spec_hash (normalize_package_spec N q raw)) w1

/-- Witness for C1 at a concrete world: a fresh session installing
"mypkg==1.0" on a host whose probes report the python3-dev prerequisite
missing and whose external apt invocation fails; do_install raises the
CalledProcessError and the record directory and marker file (present in
the starting disk state) are gone afterwards. -/
theorem C1_rollback_on_failure_witness :
    ((⟨none⟩ : CliState).pspec = none ∨
      (⟨none⟩ : CliState).pspec =
        some (normalize_package_spec (fun s => s) (fun s => s) "mypkg==1.0")) ∧
    (do_install (fun s => s) (fun s => s) "/h" ⟨none⟩ "mypkg==1.0" false false
        { fs := [app_dir "/h" (package_spec_hash "mypkg==1.0"),
                 package_spec_filename "/h" (package_spec_hash "mypkg==1.0")],
          probe := fun _ => false, ext := fun _ => false,
          probeIdx := 0, extIdx := 0, trace := [] }).1 = .error .calledProcessError ∧
    (package_spec_filename "/h"
        (package_spec_hash (normalize_package_spec (fun s => s) (fun s => s) "mypkg==1.0")) ∉
      (do_install (fun s => s) (fun s => s) "/h" ⟨none⟩ "mypkg==1.0" false false
        { fs := [app_dir "/h" (package_spec_hash "mypkg==1.0"),
                 package_spec_filename "/h" (package_spec_hash "mypkg==1.0")],
          probe := fun _ => false, ext := fun _ => false,
          probeIdx := 0, extIdx := 0, trace := [] }).2.fs ∧
    app_dir "/h"
        (package_spec_hash (normalize_package_spec (fun s => s) (fun s => s) "mypkg==1.0")) ∉
      (do_install (fun s => s) (fun s => s) "/h" ⟨none⟩ "mypkg==1.0" false false
        { fs := [app_dir "/h" (package_spec_hash "mypkg==1.0"),
                 package_spec_filename "/h" (package_spec_hash "mypkg==1.0")],
          probe := fun _ => false, ext := fun _ => false,
          probeIdx := 0, extIdx := 0, trace := [] }).2.fs) :=
  ⟨Or.inl rfl, by rfl,
    C1_rollback_on_failure (fun s => s) (fun s => s) "/h" ⟨none⟩ "mypkg==1.0"
      false false
      { fs := [app_dir "/h" (package_spec_hash "mypkg==1.0"),
               package_spec_filename "/h" (package_spec_hash "mypkg==1.0")],
        probe := fun _ => false, ext := fun _ => false,
        probeIdx := 0, extIdx := 0, trace := [] }
      .calledProcessError (Or.inl rfl) (by rfl)⟩

set_option maxRecDepth 40000 in
/-- Counterexample for claim C2 as stated: with the record for
"mypkg==1.0" fully Ready on disk and update=clean=false, a host where the
python3-dev prerequisite probe reports missing still runs the OS package
installation step inside do_install; when that external step fails,
do_install raises instead of returning the directory, and the rollback
deletes the Ready record - so the second install is not free of side
effects and does not return the path. -/
theorem C2_counterexample :
    (do_install (fun s => s) (fun s => s) "/h" ⟨none⟩ "mypkg==1.0" false false
        { fs := [app_dir "/h" (package_spec_hash "mypkg==1.0"),
                 app_venv_dir "/h" (package_spec_hash "mypkg==1.0"),
                 package_spec_filename "/h" (package_spec_hash "mypkg==1.0"),
                 python_prog "/h" (package_spec_hash "mypkg==1.0"),
                 pip_prog "/h" (package_spec_hash "mypkg==1.0")],
          probe := fun _ => false, ext := fun _ => false,
          probeIdx := 0, extIdx := 0, trace := [] }).1 = .error .calledProcessError ∧
    ((do_install (fun s => s) (fun s => s) "/h" ⟨none⟩ "mypkg==1.0" false false
        { fs := [app_dir "/h" (package_spec_hash "mypkg==1.0"),
                 app_venv_dir "/h" (package_spec_hash "mypkg==1.0"),
                 package_spec_filename "/h" (package_spec_hash "mypkg==1.0"),
                 python_prog "/h" (package_spec_hash "mypkg==1.0"),
                 pip_prog "/h" (package_spec_hash "mypkg==1.0")],
          probe := fun _ => false, ext := fun _ => false,
          probeIdx := 0, extIdx := 0, trace := [] }).2.fs.contains
      (app_dir "/h" (package_spec_hash "mypkg==1.0"))) = false :=
  ⟨rfl, rfl⟩

/-- Claim C2 amended: if the record for the canonical spec is Ready on
disk (marker file, interpreter, package manager, record directory and
environment subtree present), the caller passes update=false and
clean=false, and the auxiliary OS-prerequisite step succeeds if invoked
(the source runs that step even on the Reuse path, and its failure rolls
the record back, as the counterexample exhibits), then do_install
performs no removal, no environment creation and no record
install/upgrade step - at most the OS-prerequisite installation appears
in the trace - leaves the record filesystem unchanged, and returns the
record directory determined by the spec's identity, hence the same path
as the first installation. -/
theorem C2_ready_reuse (N q : String → String) (home : String) (st : CliState)
    (raw : String) (w : World)
    (hbind : st.pspec = none ∨ st.pspec = some (normalize_package_spec N q raw))
    (hmarker : package_spec_filename home
      (package_spec_hash (normalize_package_spec N q raw)) ∈ w.fs)
    (hpython : python_prog home
      (package_spec_hash (normalize_package_spec N q raw)) ∈ w.fs)
    (hpip : pip_prog home
      (package_spec_hash (normalize_package_spec N q raw)) ∈ w.fs)
    (hdir : app_dir home
      (package_spec_hash (normalize_package_spec N q raw)) ∈ w.fs)
    (hvenv : app_venv_dir home
      (package_spec_hash (normalize_package_spec N q raw)) ∈ w.fs)
    (htrace : w.trace = [])
    (hext : w.ext w.extIdx = true) :
    (do_install N q home st raw false false w).1 =
      .ok (⟨some (normalize_package_spec N q raw)⟩,
        app_dir home (package_spec_hash (normalize_package_spec N q raw))) ∧
    (do_install N q home st raw false false w).2.fs = w.fs ∧
    ∀ ev ∈ (do_install N q home st raw false false w).2.trace,
      ev = Event.aptInstall := by
  unfold do_install
  rw [if_pos hbind]
  unfold doInstallTry
  simp [hmarker, hpython, hpip, hdir, hvenv, hext, htrace]
  split
  · rename_i dir w1 heq
    split at heq <;>
    · cases heq
      exact ⟨rfl, rfl, by simp⟩
  · rename_i e w1 heq
    split at heq <;> simp at heq

/-- Witness for C2 at a concrete world: with the record for "mypkg==1.0"
Ready on disk, both prerequisite probes succeeding and the external
oracle successful, the second install returns the same record directory,
leaves the filesystem exactly as it was, and records at most the
OS-prerequisite event. -/
theorem C2_ready_reuse_witness :
    ((⟨none⟩ : CliState).pspec = none ∨
      (⟨none⟩ : CliState).pspec =
        some (normalize_package_spec (fun s => s) (fun s => s) "mypkg==1.0")) ∧
    ((do_install (fun s => s) (fun s => s) "/h" ⟨none⟩ "mypkg==1.0" false false
        { fs := [package_spec_filename "/h"
                   (package_spec_hash
                     (normalize_package_spec (fun s => s) (fun s => s) "mypkg==1.0")),
                 python_prog "/h"
                   (package_spec_hash
                     (normalize_package_spec (fun s => s) (fun s => s) "mypkg==1.0")),
                 pip_prog "/h"
                   (package_spec_hash
                     (normalize_package_spec (fun s => s) (fun s => s) "mypkg==1.0")),
                 app_dir "/h"
                   (package_spec_hash
                     (normalize_package_spec (fun s => s) (fun s => s) "mypkg==1.0")),
                 app_venv_dir "/h"
                   (package_spec_hash
                     (normalize_package_spec (fun s => s) (fun s => s) "mypkg==1.0"))],
          probe := fun _ => true, ext := fun _ => true,
          probeIdx := 0, extIdx := 0, trace := [] }).1 =
      .ok (⟨some (normalize_package_spec (fun s => s) (fun s => s) "mypkg==1.0")⟩,
        app_dir "/h"
          (package_spec_hash
            (normalize_package_spec (fun s => s) (fun s => s) "mypkg==1.0"))) ∧
    (do_install (fun s => s) (fun s => s) "/h" ⟨none⟩ "mypkg==1.0" false false
        { fs := [package_spec_filename "/h"
                   (package_spec_hash
                     (normalize_package_spec (fun s => s) (fun s => s) "mypkg==1.0")),
                 python_prog "/h"
                   (package_spec_hash
                     (normalize_package_spec (fun s => s) (fun s => s) "mypkg==1.0")),
                 pip_prog "/h"
                   (package_spec_hash
                     (normalize_package_spec (fun s => s) (fun s => s) "mypkg==1.0")),
                 app_dir "/h"
                   (package_spec_hash
                     (normalize_package_spec (fun s => s) (fun s => s) "mypkg==1.0")),
                 app_venv_dir "/h"
                   (package_spec_hash
                     (normalize_package_spec (fun s => s) (fun s => s) "mypkg==1.0"))],
          probe := fun _ => true, ext := fun _ => true,
          probeIdx := 0, extIdx := 0, trace := [] }).2.fs =
      [package_spec_filename "/h"
         (package_spec_hash
           (normalize_package_spec (fun s => s) (fun s => s) "mypkg==1.0")),
       python_prog "/h"
         (package_spec_hash
           (normalize_package_spec (fun s => s) (fun s => s) "mypkg==1.0")),
       pip_prog "/h"
         (package_spec_hash
           (normalize_package_spec (fun s => s) (fun s => s) "mypkg==1.0")),
       app_dir "/h"
         (package_spec_hash
           (normalize_package_spec (fun s => s) (fun s => s) "mypkg==1.0")),
       app_venv_dir "/h"
         (package_spec_hash
           (normalize_package_spec (fun s => s) (fun s => s) "mypkg==1.0"))] ∧
    ∀ ev ∈ (do_install (fun s => s) (fun s => s) "/h" ⟨none⟩ "mypkg==1.0" false false
        { fs := [package_spec_filename "/h"
                   (package_spec_hash
                     (normalize_package_spec (fun s => s) (fun s => s) "mypkg==1.0")),
                 python_prog "/h"
                   (package_spec_hash
                     (normalize_package_spec (fun s => s) (fun s => s) "mypkg==1.0")),
                 pip_prog "/h"
                   (package_spec_hash
                     (normalize_package_spec (fun s => s) (fun s => s) "mypkg==1.0")),
                 app_dir "/h"
                   (package_spec_hash
                     (normalize_package_spec (fun s => s) (fun s => s) "mypkg==1.0")),
                 app_venv_dir "/h"
                   (package_spec_hash
                     (normalize_package_spec (fun s => s) (fun s => s) "mypkg==1.0"))],
          probe := fun _ => true, ext := fun _ => true,
          probeIdx := 0, extIdx := 0, trace := [] }).2.trace,
      ev = Event.aptInstall) :=
  ⟨Or.inl rfl,
    C2_ready_reuse (fun s => s) (fun s => s) "/h" ⟨none⟩ "mypkg==1.0" _
      (Or.inl rfl) (by simp) (by simp) (by simp) (by simp) (by simp) rfl rfl⟩

/-- Claim C10: for every invocation of the run command whose command list
after the package spec is empty, cmd_run performs provisioning only and
nothing else: its result world is exactly the world after do_install (so
no target command is resolved or spawned and no further external call is
made), and its exit code is 0 exactly when provisioning completes, the
provisioning error propagating unchanged otherwise.  This holds in both
the verbose and the captured-output mode. -/
theorem C10_run_empty_command (N q : String → String) (home : String)
    (st : CliState) (raw : String) (update clean verbose : Bool) (w : World) :
    cmd_run N q home st raw update clean verbose [] w =
      ((do_install N q home st raw update clean w).1.map (fun _ => (0 : Nat)),
       (do_install N q home st raw update clean w).2) := by
  unfold cmd_run
  rcases hres : do_install N q home st raw update clean w with ⟨res, w1⟩
  cases verbose <;> cases res <;>
    simp [M_bind_apply, M_pure_apply, hres, Except.map]

/-- Witness for C3 at a concrete input: normalizing the canonical form of
the local path "/pkg" again leaves it unchanged. -/
theorem C3_normalize_idempotent_witness :
    normalize_package_spec (fun s => s) (fun s => s)
        (normalize_package_spec (fun s => s) (fun s => s) "/pkg") =
      normalize_package_spec (fun s => s) (fun s => s) "/pkg" :=
  C3_normalize_idempotent (fun s => s) (fun s => s) "/pkg"

/-- Witness for C4 at a concrete input: the identity of "mypkg==1.0" is a
40-character lowercase hexadecimal digest, and equal specs give equal
identities. -/
theorem C4_identity_deterministic_hex_witness :
    (package_spec_hash "mypkg==1.0").length = 40 ∧
    (∀ ch ∈ (package_spec_hash "mypkg==1.0").data, ch ∈ ("0123456789abcdef").data) ∧
    (∀ c2 : String, "mypkg==1.0" = c2 →
      package_spec_hash "mypkg==1.0" = package_spec_hash c2) :=
  C4_identity_deterministic_hex "mypkg==1.0"

/-- Witness for C10 at a concrete world: running "mypkg==1.0" with an
empty command list produces exactly the provisioning result mapped to
exit code 0. -/
theorem C10_run_empty_command_witness :
    cmd_run (fun s => s) (fun s => s) "/h" ⟨none⟩ "mypkg==1.0" false false false []
        { fs := [], probe := fun _ => true, ext := fun _ => true,
          probeIdx := 0, extIdx := 0, trace := [] } =
      ((do_install (fun s => s) (fun s => s) "/h" ⟨none⟩ "mypkg==1.0" false false
          { fs := [], probe := fun _ => true, ext := fun _ => true,
            probeIdx := 0, extIdx := 0, trace := [] }).1.map (fun _ => (0 : Nat)),
       (do_install (fun s => s) (fun s => s) "/h" ⟨none⟩ "mypkg==1.0" false false
          { fs := [], probe := fun _ => true, ext := fun _ => true,
            probeIdx := 0, extIdx := 0, trace := [] }).2) :=
  C10_run_empty_command (fun s => s) (fun s => s) "/h" ⟨none⟩ "mypkg==1.0"
    false false false
    { fs := [], probe := fun _ => true, ext := fun _ => true,
      probeIdx := 0, extIdx := 0, trace := [] }
